import Mathlib

/-!
# Verification of the Dr. Greenthumb Trademark Tracker

A shallow embedding of the repository's core logic:

* `src/tracker.py` — `TrademarkTracker`: `load_data`, `add_trademark`,
  `get_upcoming`.
* `src/integrations/licensing_connector.py` — `LicensingConnector`:
  `load_json`, `check_territory_conflicts`, `_check_unfiled_territory`,
  `generate_territory_report`.
* `src/integrations/calendar_sync.py` — `CalendarSync`: `generate_ical`,
  `_create_event`.

Modelling conventions:

* Calendar dates (`date`/`datetime` values, ISO-8601 date strings parsed by
  `datetime.fromisoformat`) are modelled as integers counting whole days from
  a fixed epoch; this preserves ordering, day differences and `timedelta`
  arithmetic, which is all the code uses.
* `datetime.now()` is an ambient input: every function that calls it receives
  the current instant as an explicit `today`/`now` argument representing the
  value `datetime.now()` returned during that call.
* The presence or absence of a data file on disk is modelled as an
  `Option` of its parsed contents (`none` = file does not exist).
* Python's `sorted` with a `key` is a stable sort; it is embedded as
  `List.insertionSort` on the key order, which computes the same (unique)
  stable-sort result.
-/

/-- A trademark record as produced by `add_trademark` and stored in
`trademarks.json`.  `registration_number` is an optional key, read elsewhere
via `tm.get('registration_number', 'N/A')`. -/
structure Trademark where
  id : Int
  name : String
  jurisdiction : String
  filing_date : Int
  renewal_date : Int
  status : String
  created : Int
  registration_number : Option String := none
deriving DecidableEq

/-- A licensing-agreement record from `licensing_agreements.json`.
`territories` models `agreement.get('territories', [])` (an absent key is the
empty list). -/
structure Agreement where
  id : Int
  licensee : String
  territories : List String
  status : String
deriving DecidableEq

/-! ## `src/tracker.py` -/

/-- Embeds `TrademarkTracker.load_data`: if the data file exists its parsed contents
are returned, otherwise the empty list.  The result is wrapped in `Except` to
record that the function returns normally (it raises no exception on a
missing file); a malformed file would raise inside `json.load`, which is
outside the scope of the claims. -/
def load_data (file : Option (List Trademark)) : Except String (List Trademark) :=
  match file with
  | some data => .ok data
  | none => .ok []

/-- Embeds `TrademarkTracker.add_trademark`: builds a record with
`id = len(self.trademarks) + 1`, `status = "active"`,
`created = datetime.now()`, and appends it to the collection. -/
def add_trademark (name jurisdiction : String) (filing_date renewal_date : Int)
    (now : Int) (trademarks : List Trademark) : List Trademark :=
  trademarks ++ [{ id := (trademarks.length : Int) + 1
                   name := name
                   jurisdiction := jurisdiction
                   filing_date := filing_date
                   renewal_date := renewal_date
                   status := "active"
                   created := now }]

/-- An element of the list returned by `get_upcoming`: the dict
`{**tm, 'days_until': days_until}`, i.e. a copy of the input record together
with the extra key. -/
structure UpcomingEntry where
  tm : Trademark
  days_until : Int
deriving DecidableEq

/-- The loop body of `get_upcoming`, before the final `sorted`: skip records
whose status is not `active`; keep `tm` when
`today <= renewal <= today + days`, pairing it with
`days_until = (renewal - today).days`.  `List.filterMap` preserves the input
order, as the Python loop does. -/
def upcomingUnsorted (today : Int) (trademarks : List Trademark) (days : Int) :
    List UpcomingEntry :=
  trademarks.filterMap fun tm =>
    if tm.status = "active" ∧ today ≤ tm.renewal_date ∧ tm.renewal_date ≤ today + days
    then some { tm := tm, days_until := tm.renewal_date - today }
    else none

/-- The key order used by `sorted(upcoming, key=lambda x: x['days_until'])`. -/
def entryLE (a b : UpcomingEntry) : Prop :=
  a.days_until ≤ b.days_until

instance : DecidableRel entryLE := fun a b =>
  inferInstanceAs (Decidable (a.days_until ≤ b.days_until))

instance : IsTotal UpcomingEntry entryLE := ⟨fun a b => le_total a.days_until b.days_until⟩

instance : IsTrans UpcomingEntry entryLE := ⟨fun _ _ _ h h' => le_trans h h'⟩

/-- Embeds `TrademarkTracker.get_upcoming(days)`.  `today` is the date part of the
`datetime.now()` call made inside the function. -/
def get_upcoming (today : Int) (trademarks : List Trademark) (days : Int) :
    List UpcomingEntry :=
  List.insertionSort entryLE (upcomingUnsorted today trademarks days)

example :
    get_upcoming 0
      [{ id := 1, name := "A", jurisdiction := "Texas", filing_date := -100,
         renewal_date := 25, status := "active", created := 0 }] 30 =
      [{ tm := { id := 1, name := "A", jurisdiction := "Texas", filing_date := -100,
                 renewal_date := 25, status := "active", created := 0 },
         days_until := 25 }] := by decide

/-! ## `src/integrations/licensing_connector.py` -/

/-- Python's `str.lower()`.  The repository's jurisdiction and territory
strings are ASCII, where `str.lower` is exactly the per-character ASCII case
map. -/
def pyLower (s : String) : String :=
  ⟨s.data.map Char.toLower⟩

/-- Embeds `LicensingConnector.load_json`: `json.load` of the file, with
`except FileNotFoundError: return []`. -/
def load_json {α : Type} (file : Option (List α)) : List α :=
  match file with
  | some data => data
  | none => []

/-- The conflict dict appended by `_check_unfiled_territory` for a matching
(trademark, agreement) pair. -/
structure Conflict where
  trademark : String
  jurisdiction : String
  issue : String
  licensee : String
  agreement_id : Int
  risk_level : String
  cost_to_file : String
  recommended_action : String
deriving DecidableEq

/-- The record literal built inside `_check_unfiled_territory`. -/
def conflictRecord (tm : Trademark) (agreement : Agreement) : Conflict :=
  { trademark := tm.name
    jurisdiction := tm.jurisdiction
    issue := "Operating without TM protection"
    licensee := agreement.licensee
    agreement_id := agreement.id
    risk_level := "HIGH"
    cost_to_file := "$3,900"
    recommended_action :=
      "File trademark in " ++ tm.jurisdiction ++ " immediately to protect licensed territory" }

/-- Embeds `LicensingConnector._check_unfiled_territory`: for each agreement, if
`jurisdiction.lower() in agreement.get('territories', [])` and the agreement
is active, append a conflict record.  Note the *agreement* territories are
compared as written; only the trademark's jurisdiction is lowercased. -/
def check_unfiled_territory (agreements : List Agreement) (tm : Trademark) :
    List Conflict :=
  agreements.filterMap fun agreement =>
    if pyLower tm.jurisdiction ∈ agreement.territories ∧ agreement.status = "active"
    then some (conflictRecord tm agreement)
    else none

/-- Embeds `LicensingConnector.check_territory_conflicts`: for trademarks whose
status is `pending` or `abandoned`, extend the result with the conflicts of
`_check_unfiled_territory` (extending with an empty list is a no-op, so the
`if territory_conflicts:` guard does not change the value). -/
def check_territory_conflicts (trademarks : List Trademark)
    (agreements : List Agreement) : List Conflict :=
  trademarks.flatMap fun tm =>
    if tm.status = "pending" ∨ tm.status = "abandoned"
    then check_unfiled_territory agreements tm
    else []

/-- The `licensed_territories` set built in `generate_territory_report`:
`territory.lower()` for every territory of every active agreement. -/
def licensed_territories (agreements : List Agreement) : Finset String :=
  ((agreements.filter fun a => a.status == "active").flatMap
    fun a => a.territories.map pyLower).toFinset

/-- The `protected_territories` set built in `generate_territory_report`:
`tm['jurisdiction'].lower()` for every active trademark. -/
def protected_territories (trademarks : List Trademark) : Finset String :=
  ((trademarks.filter fun tm => tm.status == "active").map
    fun tm => pyLower tm.jurisdiction).toFinset

/-- The dict returned by `generate_territory_report` (the `unprotected` list
is `list(unprotected)` of a Python set, whose iteration order is unspecified,
so it is kept as a set here). -/
structure TerritoryReport where
  licensed : Nat
  protected_count : Nat
  unprotected : Finset String
  conflicts : List Conflict

/-- Embeds `LicensingConnector.generate_territory_report` (its returned value; the
printing along the way has no effect on it). -/
def generate_territory_report (trademarks : List Trademark)
    (agreements : List Agreement) : TerritoryReport :=
  { licensed := (licensed_territories agreements).card
    protected_count := (protected_territories trademarks).card
    unprotected := licensed_territories agreements \ protected_territories trademarks
    conflicts := check_territory_conflicts trademarks agreements }

/-! ## `src/integrations/calendar_sync.py` -/

/-- One `VEVENT` block of the generated iCalendar document, with the fields
`_create_event` writes into the template.  The `VALARM` sub-block always has
`TRIGGER:-P1D` (one day before the event start) and `ACTION:DISPLAY`, recorded
here as `valarm_trigger_days = -1` and `valarm_action = "DISPLAY"`. -/
structure ICalEvent where
  uid : String
  dtstamp : Int
  dtstart : Int
  summary : String
  description : String
  valarm_trigger_days : Int
  valarm_action : String
deriving DecidableEq

/-- Embeds `CalendarSync._create_event`.  `now` is the `datetime.now()` used for
`DTSTAMP`. -/
def create_event (now : Int) (tm : Trademark) (event_date : Int)
    (event_type : String) : ICalEvent :=
  { uid := toString tm.id ++ "-" ++ event_type.replace " " "-" ++ "@drgreenthumbtm.com"
    dtstamp := now
    dtstart := event_date
    summary := "TM: " ++ tm.name ++ " - " ++ event_type
    description :=
      "Trademark: " ++ tm.name ++ "\n" ++
      "Jurisdiction: " ++ tm.jurisdiction ++ "\n" ++
      "Renewal Date: " ++ toString tm.renewal_date ++ "\n" ++
      "Registration: " ++ tm.registration_number.getD "N/A" ++ "\n\n" ++
      "Action: Review renewal requirements and prepare filing\n\n" ++
      "View in tracker: https://github.com/raphaelhaddock-blip/dr-greenthumb-trademark-tracker"
    valarm_trigger_days := -1
    valarm_action := "DISPLAY" }

/-- The `VEVENT` blocks `generate_ical` appends for one trademark: nothing
when the status is not `active`; otherwise one reminder event per
`days_before in [90, 60, 30, 7]` at `renewal_date - days_before`, followed by
the deadline event at `renewal_date`. -/
def eventsForTrademark (now : Int) (tm : Trademark) : List ICalEvent :=
  if tm.status ≠ "active" then []
  else
    ([90, 60, 30, 7].map fun days_before =>
      create_event now tm (tm.renewal_date - days_before)
        (toString days_before ++ "-day reminder")) ++
    [create_event now tm tm.renewal_date "RENEWAL DEADLINE"]

/-- The sequence of `VEVENT` blocks of the iCalendar document written by
`CalendarSync.generate_ical` (the fixed `VCALENDAR` header and footer carry no
per-trademark data). -/
def generate_ical_events (now : Int) (trademarks : List Trademark) :
    List ICalEvent :=
  trademarks.flatMap (eventsForTrademark now)

/-! ## Specification-side definitions

These follow the specification's wording rather than the source, for
comparison against the embedded code. -/

/-- Number of (pending-or-abandoned trademark, active agreement) pairs whose
territory strings match **case-insensitively**, as the spec words it: the
agreement's `territories` contains the trademark's jurisdiction under
case-insensitive comparison (both sides normalized). -/
def claim_conflict_pairs (trademarks : List Trademark)
    (agreements : List Agreement) : Nat :=
  ((trademarks.filter fun tm =>
      decide (tm.status = "pending" ∨ tm.status = "abandoned")).flatMap
    fun tm => agreements.filter fun a =>
      decide (a.status = "active" ∧
        ∃ t ∈ a.territories, pyLower t = pyLower tm.jurisdiction)).length

/-- Number of (pending-or-abandoned trademark, active agreement) pairs whose
`territories` list contains the trademark's jurisdiction **lowercased**,
compared exactly against the territory strings as written — the matching rule
the code actually implements. -/
def amended_conflict_pairs (trademarks : List Trademark)
    (agreements : List Agreement) : Nat :=
  ((trademarks.filter fun tm =>
      decide (tm.status = "pending" ∨ tm.status = "abandoned")).flatMap
    fun tm => agreements.filter fun a =>
      decide (pyLower tm.jurisdiction ∈ a.territories ∧ a.status = "active")).length

/-- The spec's `licensed_territories`: union of `territories` over agreements
where `status == active`, lowercased. -/
def spec_licensed (agreements : List Agreement) : Set String :=
  {t | ∃ a ∈ agreements, a.status = "active" ∧ ∃ s ∈ a.territories, pyLower s = t}

/-- The spec's `protected_territories`: set of lowercased `jurisdiction` over
trademarks where `status == active`. -/
def spec_protected (trademarks : List Trademark) : Set String :=
  {t | ∃ tm ∈ trademarks, tm.status = "active" ∧ pyLower tm.jurisdiction = t}

/-- The spec's `unprotected = licensed_territories - protected_territories`. -/
def spec_unprotected (trademarks : List Trademark) (agreements : List Agreement) :
    Set String :=
  spec_licensed agreements \ spec_protected trademarks

/-! ## Concrete records used in counterexamples and witnesses -/

/-- A pending trademark whose jurisdiction carries an uppercase letter. -/
def pendingTexasTm : Trademark :=
  { id := 1, name := "DR. GREENTHUMB", jurisdiction := "Texas", filing_date := 0,
    renewal_date := 100, status := "pending", created := 0 }

/-- An active agreement whose territory string carries an uppercase letter. -/
def capitalTexasAg : Agreement :=
  { id := 7, licensee := "Lone Star Partner", territories := ["Texas"],
    status := "active" }

/-- An active agreement over the lowercase territory `texas`. -/
def texasAg : Agreement :=
  { id := 1, licensee := "Lone Star Partner", territories := ["texas"],
    status := "active" }

/-- An active trademark with jurisdiction `Texas`. -/
def activeTexasTm : Trademark :=
  { id := 1, name := "DR. GREENTHUMB", jurisdiction := "Texas", filing_date := 0,
    renewal_date := 100, status := "active", created := 0 }

/-- A loaded collection holding a single record whose id is `2`:
`len(collection) + 1 = 2` collides with it. -/
def idTwoState : List Trademark :=
  [{ id := 2, name := "X", jurisdiction := "Arizona", filing_date := 0,
     renewal_date := 100, status := "active", created := 0 }]

/-- A collection holding a single record with id `1` (as produced by one
`add_trademark` from empty). -/
def idOneState : List Trademark :=
  [{ id := 1, name := "X", jurisdiction := "Arizona", filing_date := 0,
     renewal_date := 100, status := "active", created := 0 }]

/-- An active trademark whose renewal date is day `10`. -/
def renewalTenTm : Trademark :=
  { id := 1, name := "A", jurisdiction := "Arizona", filing_date := 0,
    renewal_date := 10, status := "active", created := 0 }

/-- An active trademark whose renewal date is day `30`. -/
def renewalThirtyTm : Trademark :=
  { id := 1, name := "A", jurisdiction := "Arizona", filing_date := 0,
    renewal_date := 30, status := "active", created := 0 }

/-- A pending trademark (used to check that only active records appear). -/
def pendingTm : Trademark :=
  { id := 2, name := "B", jurisdiction := "Nevada", filing_date := 0,
    renewal_date := 5, status := "pending", created := 0 }

/-! ## Claim C4 — missing input files -/

/-- C4 counterexample: a missing primary trademarks file is **not** fatal.
`TrademarkTracker.load_data` returns normally with the empty collection when
`trademarks.json` does not exist, so the run proceeds with no data — the
claim that this case fails the run is false. -/
theorem load_data_missing_file_not_fatal :
    load_data none = Except.ok ([] : List Trademark) := rfl

/-- C4 (amended): a missing licensing-agreements file is treated as the empty
collection, and a missing primary trademarks file is likewise treated as the
empty collection rather than an error; a present file yields its contents for
both sources. -/
theorem missing_files_empty_collections :
    load_json (α := Agreement) none = [] ∧
    load_data none = Except.ok ([] : List Trademark) ∧
    (∀ ags : List Agreement, load_json (some ags) = ags) ∧
    (∀ tms : List Trademark, load_data (some tms) = Except.ok tms) :=
  ⟨rfl, rfl, fun _ => rfl, fun _ => rfl⟩

/-! ## Claims C5 / C10 — `add_trademark` -/

/-- C5 counterexample: starting from the loaded collection `idTwoState`
(a single record with id 2), `add_trademark` assigns the new record the id
`len + 1 = 2`, equal to an id already present — the created id is not
distinct from every id in the collection. -/
theorem add_trademark_id_collision :
    (add_trademark "Y" "California" 0 200 0 idTwoState).map Trademark.id = [2, 2] ∧
    ¬ ((add_trademark "Y" "California" 0 200 0 idTwoState).map Trademark.id).Nodup := by
  decide

/-- C5 (amended): on any collection all of whose ids are at most its length —
an invariant every collection built by `add_trademark` from the empty
collection satisfies — the id assigned by `add_trademark`, `length + 1`, is
strictly greater than every id present (hence distinct from all of them and
monotonically increasing), and the invariant is preserved, so it holds along
every sequence of `add_trademark` operations. -/
theorem add_trademark_id_fresh_of_bounded (name juris : String)
    (fd rd now : Int) (s : List Trademark)
    (h : ∀ tm ∈ s, tm.id ≤ (s.length : Int)) :
    (∀ tm ∈ s, tm.id < (s.length : Int) + 1) ∧
    ((s.length : Int) + 1) ∉ s.map Trademark.id ∧
    (add_trademark name juris fd rd now s).map Trademark.id =
      s.map Trademark.id ++ [(s.length : Int) + 1] ∧
    (∀ tm ∈ add_trademark name juris fd rd now s,
      tm.id ≤ ((add_trademark name juris fd rd now s).length : Int)) := by
  refine ⟨fun tm htm => lt_of_le_of_lt (h tm htm) (by omega), ?_, ?_, ?_⟩
  · intro hmem
    rcases List.mem_map.mp hmem with ⟨tm, htm, hid⟩
    have := h tm htm
    omega
  · simp [add_trademark]
  · intro tm htm
    rcases List.mem_append.mp htm with hl | hr
    · calc tm.id ≤ (s.length : Int) := h tm hl
        _ ≤ _ := by simp [add_trademark]
    · rcases List.mem_singleton.mp hr with rfl
      simp [add_trademark]

/-- C5 witness: the amended theorem applied to the concrete one-record
collection `idOneState`, whose single id 1 is bounded by its length. -/
theorem add_trademark_id_fresh_of_bounded_witness :
    (∀ tm ∈ idOneState, tm.id ≤ (idOneState.length : Int)) ∧
    ((∀ tm ∈ idOneState, tm.id < (idOneState.length : Int) + 1) ∧
     ((idOneState.length : Int) + 1) ∉ idOneState.map Trademark.id ∧
     (add_trademark "B" "California" 0 200 0 idOneState).map Trademark.id =
       idOneState.map Trademark.id ++ [(idOneState.length : Int) + 1] ∧
     (∀ tm ∈ add_trademark "B" "California" 0 200 0 idOneState,
       tm.id ≤ ((add_trademark "B" "California" 0 200 0 idOneState).length : Int))) :=
  ⟨by decide, add_trademark_id_fresh_of_bounded "B" "California" 0 200 0 idOneState
    (by decide)⟩

/-- C10: `add_trademark` appends exactly one record — with status `active` —
to the end of the collection and leaves every previously stored record
unchanged (the prior prefix of the collection is preserved verbatim). -/
theorem add_trademark_appends_single_active_record (name juris : String)
    (fd rd now : Int) (s : List Trademark) :
    add_trademark name juris fd rd now s =
      s ++ [{ id := (s.length : Int) + 1, name := name, jurisdiction := juris,
              filing_date := fd, renewal_date := rd, status := "active",
              created := now }] ∧
    (add_trademark name juris fd rd now s).length = s.length + 1 ∧
    (add_trademark name juris fd rd now s).take s.length = s ∧
    ∀ tm ∈ (add_trademark name juris fd rd now s).drop s.length,
      tm.status = "active" := by
  refine ⟨rfl, by simp [add_trademark], ?_, ?_⟩
  · simp [add_trademark, List.take_left]
  · intro tm htm
    simp only [add_trademark, List.drop_left] at htm
    rcases List.mem_singleton.mp htm with rfl
    rfl

/-- C10 witness: the frame property evaluated on the concrete one-record
collection `idOneState`. -/
theorem add_trademark_appends_single_active_record_witness :
    (add_trademark "B" "California" 0 200 0 idOneState).take idOneState.length =
      idOneState ∧
    ∀ tm ∈ (add_trademark "B" "California" 0 200 0 idOneState).drop
        idOneState.length, tm.status = "active" :=
  ⟨(add_trademark_appends_single_active_record "B" "California" 0 200 0
      idOneState).2.2.1,
   (add_trademark_appends_single_active_record "B" "California" 0 200 0
      idOneState).2.2.2⟩

/-! ## Claim C8 — dependence on the ambient current date -/

/-- C8 counterexample: with the trademark list and the horizon held fixed,
`get_upcoming` returns different results at two different ambient current
dates (`datetime.now()` values) — the classification is **not** independent
of the real current date, and the code offers no `as_of` parameter through
which the date could be supplied by the caller. -/
theorem get_upcoming_depends_on_current_date :
    get_upcoming 10 [renewalTenTm] 30 ≠ get_upcoming 11 [renewalTenTm] 30 := by
  decide

/-! ## Helper lemmas about `get_upcoming` -/

/-- Membership in the pre-sort list built by the `get_upcoming` loop. -/
lemma mem_upcomingUnsorted {today days : Int} {trademarks : List Trademark}
    {e : UpcomingEntry} :
    e ∈ upcomingUnsorted today trademarks days ↔
      ∃ tm ∈ trademarks,
        (tm.status = "active" ∧ today ≤ tm.renewal_date ∧
          tm.renewal_date ≤ today + days) ∧
        e = { tm := tm, days_until := tm.renewal_date - today } := by
  simp only [upcomingUnsorted, List.mem_filterMap]
  constructor
  · rintro ⟨tm, htm, hf⟩
    by_cases hc : tm.status = "active" ∧ today ≤ tm.renewal_date ∧
        tm.renewal_date ≤ today + days
    · rw [if_pos hc] at hf
      exact ⟨tm, htm, hc, (Option.some.injEq _ _).mp hf |>.symm⟩
    · rw [if_neg hc] at hf
      exact absurd hf (Option.noConfusion)
  · rintro ⟨tm, htm, hc, rfl⟩
    exact ⟨tm, htm, by rw [if_pos hc]⟩

/-- Membership characterization of the value returned by `get_upcoming`. -/
lemma mem_get_upcoming {today days : Int} {trademarks : List Trademark}
    {e : UpcomingEntry} :
    e ∈ get_upcoming today trademarks days ↔
      e.tm ∈ trademarks ∧ e.tm.status = "active" ∧
      today ≤ e.tm.renewal_date ∧ e.tm.renewal_date ≤ today + days ∧
      e.days_until = e.tm.renewal_date - today := by
  rw [get_upcoming, List.mem_insertionSort, mem_upcomingUnsorted]
  constructor
  · rintro ⟨tm, htm, hc, rfl⟩
    exact ⟨htm, hc.1, hc.2.1, hc.2.2, rfl⟩
  · rintro ⟨htm, hst, hlo, hhi, hdu⟩
    exact ⟨e.tm, htm, ⟨hst, hlo, hhi⟩, by cases e; simp_all⟩

/-- The pre-sort list is a sublist of the one for any larger horizon. -/
lemma upcomingUnsorted_sublist (today : Int) (trademarks : List Trademark)
    {h1 h2 : Int} (h : h1 ≤ h2) :
    List.Sublist (upcomingUnsorted today trademarks h1)
      (upcomingUnsorted today trademarks h2) := by
  induction trademarks with
  | nil => simp [upcomingUnsorted]
  | cons tm tms ih =>
    simp only [upcomingUnsorted, List.filterMap_cons] at ih ⊢
    by_cases hc1 : tm.status = "active" ∧ today ≤ tm.renewal_date ∧
        tm.renewal_date ≤ today + h1
    · have hc2 : tm.status = "active" ∧ today ≤ tm.renewal_date ∧
          tm.renewal_date ≤ today + h2 := ⟨hc1.1, hc1.2.1, by omega⟩
      rw [if_pos hc1, if_pos hc2]
      exact List.Sublist.cons₂ _ ih
    · rw [if_neg hc1]
      by_cases hc2 : tm.status = "active" ∧ today ≤ tm.renewal_date ∧
          tm.renewal_date ≤ today + h2
      · rw [if_pos hc2]
        exact List.Sublist.cons _ ih
      · rw [if_neg hc2]
        exact ih

/-- Sorted results have the length of their pre-sort lists. -/
lemma length_get_upcoming (today : Int) (trademarks : List Trademark)
    (days : Int) :
    (get_upcoming today trademarks days).length =
      (upcomingUnsorted today trademarks days).length :=
  List.length_insertionSort _ _

/-! ## Helper lemmas: stability of the sort in `get_upcoming` -/

/-- Inserting an entry whose key equals `k` puts it in front of every other
entry with key `k` (entries skipped over have strictly smaller keys). -/
lemma filter_orderedInsert_key_eq {k : Int} (a : UpcomingEntry)
    (l : List UpcomingEntry) (ha : a.days_until = k) :
    (List.orderedInsert entryLE a l).filter (fun e => e.days_until == k) =
      a :: l.filter (fun e => e.days_until == k) := by
  induction l with
  | nil => simp [List.orderedInsert, List.filter_cons, ha]
  | cons b l ih =>
    by_cases hab : entryLE a b
    · rw [List.orderedInsert_of_le _ _ hab]
      simp [List.filter_cons, ha]
    · have hb : ¬ b.days_until = k := by
        simp only [entryLE, not_le] at hab
        omega
      simp only [List.orderedInsert, if_neg hab, List.filter_cons]
      simp [hb, ih]

/-- Inserting an entry whose key differs from `k` does not disturb the
entries with key `k`. -/
lemma filter_orderedInsert_key_ne {k : Int} (a : UpcomingEntry)
    (l : List UpcomingEntry) (ha : ¬ a.days_until = k) :
    (List.orderedInsert entryLE a l).filter (fun e => e.days_until == k) =
      l.filter (fun e => e.days_until == k) := by
  induction l with
  | nil => simp [List.orderedInsert, List.filter_cons, ha]
  | cons b l ih =>
    by_cases hab : entryLE a b
    · rw [List.orderedInsert_of_le _ _ hab]
      simp [List.filter_cons, ha]
    · simp only [List.orderedInsert, if_neg hab, List.filter_cons, ih]

/-- Stability of the embedded sort: restricting the sorted list to any one
key value gives exactly the same sequence as restricting the input. -/
lemma filter_insertionSort_key (l : List UpcomingEntry) (k : Int) :
    (List.insertionSort entryLE l).filter (fun e => e.days_until == k) =
      l.filter (fun e => e.days_until == k) := by
  induction l with
  | nil => rfl
  | cons a l ih =>
    show (List.orderedInsert entryLE a (List.insertionSort entryLE l)).filter _ = _
    by_cases ha : a.days_until = k
    · rw [filter_orderedInsert_key_eq a _ ha, ih]
      simp [List.filter_cons, ha]
    · rw [filter_orderedInsert_key_ne a _ ha, ih]
      simp [List.filter_cons, ha]

/-! ## Claim C3 — membership in the upcoming classification -/

/-- C3: an entry for a trademark appears in `get_upcoming` iff the
trademark's status is `active` and `0 <= days_until <= horizon`, where
`days_until = renewal_date - today` in whole days; a trademark with
`renewal_date = today + 30` is included at horizon 30 with `days_until = 30`
and excluded at horizon 29; no non-active trademark ever appears. -/
theorem get_upcoming_membership_characterization (today days : Int)
    (trademarks : List Trademark) :
    (∀ tm ∈ trademarks,
      ((∃ e ∈ get_upcoming today trademarks days, e.tm = tm) ↔
        (tm.status = "active" ∧ 0 ≤ tm.renewal_date - today ∧
          tm.renewal_date - today ≤ days))) ∧
    (∀ e ∈ get_upcoming today trademarks days,
      e.days_until = e.tm.renewal_date - today ∧ e.tm.status = "active" ∧
        e.tm ∈ trademarks) ∧
    (∀ tm ∈ trademarks, tm.status = "active" → tm.renewal_date = today + 30 →
      ((∃ e ∈ get_upcoming today trademarks 30, e.tm = tm ∧ e.days_until = 30) ∧
       ¬ ∃ e ∈ get_upcoming today trademarks 29, e.tm = tm)) := by
  refine ⟨?_, ?_, ?_⟩
  · intro tm htm
    constructor
    · rintro ⟨e, he, rfl⟩
      obtain ⟨-, hst, hlo, hhi, -⟩ := mem_get_upcoming.mp he
      exact ⟨hst, by omega, by omega⟩
    · rintro ⟨hst, hlo, hhi⟩
      have h1 : today ≤ tm.renewal_date := by omega
      have h2 : tm.renewal_date ≤ today + days := by omega
      exact ⟨{ tm := tm, days_until := tm.renewal_date - today },
        mem_get_upcoming.mpr ⟨htm, hst, h1, h2, rfl⟩, rfl⟩
  · intro e he
    obtain ⟨htm, hst, -, -, hdu⟩ := mem_get_upcoming.mp he
    exact ⟨hdu, hst, htm⟩
  · intro tm htm hst hrd
    constructor
    · have h1 : today ≤ tm.renewal_date := by omega
      have h2 : tm.renewal_date ≤ today + 30 := by omega
      have h3 : (30 : Int) = tm.renewal_date - today := by omega
      exact ⟨{ tm := tm, days_until := 30 },
        mem_get_upcoming.mpr ⟨htm, hst, h1, h2, h3⟩, rfl, rfl⟩
    · rintro ⟨e, he, rfl⟩
      obtain ⟨-, -, -, hhi, -⟩ := mem_get_upcoming.mp he
      omega

/-- C3 witness: the characterization applied to the concrete trademark
`renewalThirtyTm` (renewal on day 30) with the current date `0`. -/
theorem get_upcoming_membership_characterization_witness :
    (∃ e ∈ get_upcoming 0 [renewalThirtyTm] 30,
       e.tm = renewalThirtyTm ∧ e.days_until = 30) ∧
    ¬ ∃ e ∈ get_upcoming 0 [renewalThirtyTm] 29, e.tm = renewalThirtyTm :=
  (get_upcoming_membership_characterization 0 30 [renewalThirtyTm]).2.2
    renewalThirtyTm (by decide) (by decide) (by decide)

/-! ## Claim C6 — monotonicity in the horizon -/

/-- C6: for horizons `h1 <= h2`, every entry of the `h1` classification is an
entry of the `h2` classification, the result length is monotone in the
horizon, and in particular the 90-day result is at least as long as the
60-day result, which is at least as long as the 30-day result. -/
theorem get_upcoming_monotone_in_horizon (today h1 h2 : Int)
    (trademarks : List Trademark) (h : h1 ≤ h2) :
    (∀ e ∈ get_upcoming today trademarks h1,
      e ∈ get_upcoming today trademarks h2) ∧
    (get_upcoming today trademarks h1).length ≤
      (get_upcoming today trademarks h2).length ∧
    (get_upcoming today trademarks 30).length ≤
      (get_upcoming today trademarks 60).length ∧
    (get_upcoming today trademarks 60).length ≤
      (get_upcoming today trademarks 90).length := by
  have len : ∀ {a b : Int}, a ≤ b →
      (get_upcoming today trademarks a).length ≤
        (get_upcoming today trademarks b).length := by
    intro a b hab
    rw [length_get_upcoming, length_get_upcoming]
    exact (upcomingUnsorted_sublist today trademarks hab).length_le
  refine ⟨?_, len h, len (by omega), len (by omega)⟩
  intro e he
  rw [get_upcoming, List.mem_insertionSort] at he ⊢
  exact (upcomingUnsorted_sublist today trademarks h).subset he

/-- C6 witness: the monotonicity theorem applied at horizons 30 and 60 on the
concrete list `[renewalThirtyTm]` with the current date `0`. -/
theorem get_upcoming_monotone_in_horizon_witness :
    ((30 : Int) ≤ 60) ∧
    ((∀ e ∈ get_upcoming 0 [renewalThirtyTm] 30,
        e ∈ get_upcoming 0 [renewalThirtyTm] 60) ∧
     (get_upcoming 0 [renewalThirtyTm] 30).length ≤
       (get_upcoming 0 [renewalThirtyTm] 60).length ∧
     (get_upcoming 0 [renewalThirtyTm] 30).length ≤
       (get_upcoming 0 [renewalThirtyTm] 60).length ∧
     (get_upcoming 0 [renewalThirtyTm] 60).length ≤
       (get_upcoming 0 [renewalThirtyTm] 90).length) :=
  ⟨by decide, get_upcoming_monotone_in_horizon 0 30 60 [renewalThirtyTm] (by decide)⟩

/-! ## Claim C7 — sort order and stability -/

/-- C7: the classification result is ordered ascending by `days_until`, and
for every key value the entries carrying it appear in exactly the order the
loop produced them (the input order) — stable tie-breaking with no secondary
sort key. -/
theorem get_upcoming_sorted_and_stable (today days : Int)
    (trademarks : List Trademark) :
    List.Sorted entryLE (get_upcoming today trademarks days) ∧
    ∀ k : Int,
      (get_upcoming today trademarks days).filter (fun e => e.days_until == k) =
        (upcomingUnsorted today trademarks days).filter
          (fun e => e.days_until == k) :=
  ⟨List.sorted_insertionSort entryLE _, fun k => filter_insertionSort_key _ k⟩

/-! ## Claim C8 — purity (amended) -/

/-- C8 (amended): `get_upcoming` is a pure function of exactly
(trademarks, current date at the time of the call, horizon): runs with the
same three values produce identical results, and every returned entry carries
an unmutated input record.  The date, however, is the ambient
`datetime.now()` read inside the function — not a caller-supplied `as_of`
argument — so results at different real current dates differ. -/
theorem get_upcoming_pure_in_ambient_inputs (t1 t2 : Int)
    (tms1 tms2 : List Trademark) (d1 d2 : Int)
    (ht : t1 = t2) (htms : tms1 = tms2) (hd : d1 = d2) :
    get_upcoming t1 tms1 d1 = get_upcoming t2 tms2 d2 ∧
    ∀ e ∈ get_upcoming t1 tms1 d1, e.tm ∈ tms1 := by
  subst ht htms hd
  exact ⟨rfl, fun e he => (mem_get_upcoming.mp he).1⟩

/-- C8 witness: the purity theorem applied at the concrete run
`get_upcoming 10 [renewalTenTm] 30`. -/
theorem get_upcoming_pure_in_ambient_inputs_witness :
    ((10 : Int) = 10) ∧ ([renewalTenTm] = [renewalTenTm]) ∧ ((30 : Int) = 30) ∧
    (get_upcoming 10 [renewalTenTm] 30 = get_upcoming 10 [renewalTenTm] 30 ∧
     ∀ e ∈ get_upcoming 10 [renewalTenTm] 30, e.tm ∈ [renewalTenTm]) :=
  ⟨rfl, rfl, rfl,
   get_upcoming_pure_in_ambient_inputs 10 10 [renewalTenTm] [renewalTenTm]
     30 30 rfl rfl rfl⟩

/-! ## Claim C1 — territory conflicts -/

/-- A pending trademark in Nevada (spec scenario fixture). -/
def pendingNevadaTm : Trademark :=
  { id := 3, name := "DR. GREENTHUMB", jurisdiction := "Nevada", filing_date := 0,
    renewal_date := 100, status := "pending", created := 0 }

/-- An active agreement over the lowercase territory `nevada`. -/
def nevadaAg : Agreement :=
  { id := 9, licensee := "NV Partner", territories := ["nevada"],
    status := "active" }

/-- The loop of `_check_unfiled_territory` emits exactly one conflict record per matching
agreement, in order. -/
lemma check_unfiled_territory_eq (agreements : List Agreement) (tm : Trademark) :
    check_unfiled_territory agreements tm =
      (agreements.filter fun a =>
        decide (pyLower tm.jurisdiction ∈ a.territories ∧ a.status = "active")).map
        (conflictRecord tm) := by
  induction agreements with
  | nil => rfl
  | cons a ags ih =>
    by_cases hc : pyLower tm.jurisdiction ∈ a.territories ∧ a.status = "active"
    · have h1 : check_unfiled_territory (a :: ags) tm =
          conflictRecord tm a :: check_unfiled_territory ags tm :=
        List.filterMap_cons_some (if_pos hc)
      rw [h1, List.filter_cons, if_pos (decide_eq_true hc), List.map_cons]
      exact congrArg _ ih
    · have h1 : check_unfiled_territory (a :: ags) tm =
          check_unfiled_territory ags tm :=
        List.filterMap_cons_none (if_neg hc)
      rw [h1, List.filter_cons, if_neg (fun h => hc (of_decide_eq_true h))]
      exact ih

/-- The length of a `flatMap` whose blocks are `map`s over per-element
lists. -/
lemma length_flatMap_map {α β γ : Type} (l : List α) (g : α → List β)
    (h : α → β → γ) :
    (l.flatMap fun x => (g x).map (h x)).length = (l.flatMap g).length := by
  induction l with
  | nil => rfl
  | cons x l ih => simp [List.flatMap_cons, ih]

/-- C1 counterexample: with a pending trademark in jurisdiction `Texas` and
an active agreement whose territories list holds the string `Texas`, a
case-insensitive comparison matches the pair, but the code emits no conflict:
the loop compares `jurisdiction.lower()` against the territory strings as
written, so an uppercase territory string never matches. -/
theorem check_territory_conflicts_not_case_insensitive :
    (check_territory_conflicts [pendingTexasTm] [capitalTexasAg]).length = 0 ∧
    claim_conflict_pairs [pendingTexasTm] [capitalTexasAg] = 1 ∧
    (check_territory_conflicts [pendingTexasTm] [capitalTexasAg]).length ≠
      claim_conflict_pairs [pendingTexasTm] [capitalTexasAg] := by
  decide

/-- C1 (amended): `check_territory_conflicts` emits exactly one conflict
record — with `risk_level = "HIGH"` — per pair of a trademark with status
`pending` or `abandoned` and an active agreement whose `territories` list
contains the trademark's jurisdiction *lowercased* (the territory strings are
compared as written; only the trademark side is case-normalized), and the
conflict count equals the number of such pairs, with no deduplication when
one trademark matches several agreements. -/
theorem check_territory_conflicts_characterization (trademarks : List Trademark)
    (agreements : List Agreement) :
    check_territory_conflicts trademarks agreements =
      (trademarks.filter fun tm =>
          decide (tm.status = "pending" ∨ tm.status = "abandoned")).flatMap
        (fun tm => (agreements.filter fun a =>
            decide (pyLower tm.jurisdiction ∈ a.territories ∧
              a.status = "active")).map (conflictRecord tm)) ∧
    (check_territory_conflicts trademarks agreements).length =
      amended_conflict_pairs trademarks agreements ∧
    ∀ c ∈ check_territory_conflicts trademarks agreements,
      c.risk_level = "HIGH" := by
  have main : check_territory_conflicts trademarks agreements =
      (trademarks.filter fun tm =>
          decide (tm.status = "pending" ∨ tm.status = "abandoned")).flatMap
        (fun tm => (agreements.filter fun a =>
            decide (pyLower tm.jurisdiction ∈ a.territories ∧
              a.status = "active")).map (conflictRecord tm)) := by
    induction trademarks with
    | nil => rfl
    | cons tm tms ih =>
      have hsplit : check_territory_conflicts (tm :: tms) agreements =
          (if tm.status = "pending" ∨ tm.status = "abandoned"
            then check_unfiled_territory agreements tm else []) ++
            check_territory_conflicts tms agreements :=
        List.flatMap_cons ..
      by_cases hs : tm.status = "pending" ∨ tm.status = "abandoned"
      · rw [hsplit, if_pos hs, check_unfiled_territory_eq, ih, List.filter_cons,
          if_pos (decide_eq_true hs), List.flatMap_cons]
      · rw [hsplit, if_neg hs, ih, List.filter_cons,
          if_neg (fun h => hs (of_decide_eq_true h)), List.nil_append]
  refine ⟨main, ?_, ?_⟩
  · rw [main, amended_conflict_pairs]
    exact length_flatMap_map _ _ _
  · rw [main]
    intro c hc
    rcases List.mem_flatMap.mp hc with ⟨tm, -, hm⟩
    rcases List.mem_map.mp hm with ⟨a, -, rfl⟩
    rfl

/-- C1 witness: the characterization evaluated on the spec's Nevada scenario,
where exactly one (pending trademark, active agreement) pair matches. -/
theorem check_territory_conflicts_characterization_witness :
    (check_territory_conflicts [pendingNevadaTm] [nevadaAg]).length =
      amended_conflict_pairs [pendingNevadaTm] [nevadaAg] ∧
    (∀ c ∈ check_territory_conflicts [pendingNevadaTm] [nevadaAg],
      c.risk_level = "HIGH") ∧
    (check_territory_conflicts [pendingNevadaTm] [nevadaAg]).length = 1 :=
  ⟨(check_territory_conflicts_characterization [pendingNevadaTm] [nevadaAg]).2.1,
   (check_territory_conflicts_characterization [pendingNevadaTm] [nevadaAg]).2.2,
   by decide⟩

/-! ## Claim C2 — territory coverage report -/

/-- C2: the unprotected set computed by `generate_territory_report` equals
the set difference (union of lowercased territories over active agreements)
minus (lowercased jurisdictions of active trademarks); in particular, with
one active agreement over `texas`, the set is empty when an active trademark
has jurisdiction `Texas`, and is `{texas}` when the trademark list is
empty. -/
theorem generate_territory_report_unprotected_correct
    (trademarks : List Trademark) (agreements : List Agreement) :
    ((generate_territory_report trademarks agreements).unprotected : Set String) =
      spec_unprotected trademarks agreements ∧
    (generate_territory_report [activeTexasTm] [texasAg]).unprotected = ∅ ∧
    (generate_territory_report ([] : List Trademark) [texasAg]).unprotected =
      {"texas"} := by
  refine ⟨?_, by decide, by decide⟩
  have hl : ∀ t, t ∈ licensed_territories agreements ↔
      (∃ a ∈ agreements, a.status = "active" ∧
        ∃ s ∈ a.territories, pyLower s = t) := by
    intro t
    simp only [licensed_territories, List.mem_toFinset, List.mem_flatMap,
      List.mem_filter, List.mem_map, beq_iff_eq]
    constructor
    · rintro ⟨a, ⟨ha, hs⟩, s, hsm, rfl⟩
      exact ⟨a, ha, hs, s, hsm, rfl⟩
    · rintro ⟨a, ha, hs, s, hsm, rfl⟩
      exact ⟨a, ⟨ha, hs⟩, s, hsm, rfl⟩
  have hp : ∀ t, t ∈ protected_territories trademarks ↔
      (∃ tm ∈ trademarks, tm.status = "active" ∧
        pyLower tm.jurisdiction = t) := by
    intro t
    simp only [protected_territories, List.mem_toFinset, List.mem_map,
      List.mem_filter, beq_iff_eq]
    constructor
    · rintro ⟨tm, ⟨htm, hs⟩, rfl⟩
      exact ⟨tm, htm, hs, rfl⟩
    · rintro ⟨tm, htm, hs, rfl⟩
      exact ⟨tm, ⟨htm, hs⟩, rfl⟩
  ext t
  simp only [generate_territory_report, Finset.coe_sdiff, Set.mem_diff,
    Finset.mem_coe, hl, hp, spec_unprotected, spec_licensed, spec_protected,
    Set.mem_diff, Set.mem_setOf_eq]

/-! ## Claim C9 — iCalendar events -/

/-- C9: for an active trademark, `generate_ical` emits exactly five `VEVENT`
blocks — one per alert offset in {90, 60, 30, 7} days before `renewal_date`
with summary `TM: {name} - {N}-day reminder`, plus one on the renewal date
itself labeled `RENEWAL DEADLINE` — each carrying UID, DTSTAMP, DTSTART,
SUMMARY and DESCRIPTION fields and a `DISPLAY` `VALARM` triggering one day
before the event start; a non-active trademark produces no events. -/
theorem generate_ical_five_events_per_active_trademark (now : Int)
    (tm : Trademark) :
    (tm.status = "active" →
      (eventsForTrademark now tm).length = 5 ∧
      (eventsForTrademark now tm).map ICalEvent.summary =
        ["TM: " ++ tm.name ++ " - 90-day reminder",
         "TM: " ++ tm.name ++ " - 60-day reminder",
         "TM: " ++ tm.name ++ " - 30-day reminder",
         "TM: " ++ tm.name ++ " - 7-day reminder",
         "TM: " ++ tm.name ++ " - RENEWAL DEADLINE"] ∧
      (eventsForTrademark now tm).map ICalEvent.dtstart =
        [tm.renewal_date - 90, tm.renewal_date - 60, tm.renewal_date - 30,
         tm.renewal_date - 7, tm.renewal_date] ∧
      (∀ e ∈ eventsForTrademark now tm,
        e.valarm_action = "DISPLAY" ∧ e.valarm_trigger_days = -1 ∧
          e.dtstamp = now)) ∧
    (tm.status ≠ "active" → eventsForTrademark now tm = []) ∧
    (∀ trademarks : List Trademark,
      generate_ical_events now trademarks =
        trademarks.flatMap (eventsForTrademark now)) := by
  refine ⟨?_, ?_, fun _ => rfl⟩
  · intro h
    have hne : ¬ tm.status ≠ "active" := fun hn => hn h
    rw [eventsForTrademark, if_neg hne]
    refine ⟨rfl, ?_, rfl, ?_⟩
    · simp only [List.map_append, List.map_cons, List.map_nil, create_event,
        String.append_assoc]
      rfl
    · intro e he
      rcases List.mem_append.mp he with hm | hm
      · rcases List.mem_map.mp hm with ⟨db, -, rfl⟩
        exact ⟨rfl, rfl, rfl⟩
      · rcases List.mem_singleton.mp hm with rfl
        exact ⟨rfl, rfl, rfl⟩
  · intro h
    rw [eventsForTrademark, if_pos h]

/-- C9 witness: the event-count theorem applied to the concrete active
trademark `activeTexasTm` and the concrete pending trademark
`pendingTexasTm`. -/
theorem generate_ical_five_events_per_active_trademark_witness :
    activeTexasTm.status = "active" ∧
    (eventsForTrademark 0 activeTexasTm).length = 5 ∧
    pendingTexasTm.status ≠ "active" ∧
    eventsForTrademark 0 pendingTexasTm = [] :=
  ⟨rfl,
   ((generate_ical_five_events_per_active_trademark 0 activeTexasTm).1 rfl).1,
   by decide,
   (generate_ical_five_events_per_active_trademark 0 pendingTexasTm).2.1
     (by decide)⟩
